import Mathlib

/-!
Shallow embedding of the s3x repository's core subsystems and proofs about them:

* the donut object cache (`pkg/storage/donut/cache.go`): bucket/object CRUD over an
  in-memory byte cache with an optional persistent backend,
* the s3x gateway ledger (`cmd/gateway/s3x/gateway-s3x-ledger.go`): bucket and
  multipart-upload bookkeeping over Go maps with pointer values,
* the daily lifecycle sweeper loop (`cmd/daily-lifecycle.go`).

Go maps are modelled as association lists with Go-map semantics (lookup of an absent
key yields the zero value / a nil pointer, assignment replaces or appends, `len`
counts entries).  Machine integers (`int64`) are modelled as `Int`; byte slices as
`List Nat` with each byte below 256.  `io.Writer` sinks are modelled by returning the
list of bytes written.  Run-time panics (nil-pointer dereference, slice index out of
range) are modelled as explicit `panicked` outcomes.
-/

set_option maxRecDepth 40000
set_option linter.unusedVariables false

namespace S3Spec

/-- Decidable equality for `Except`, used to evaluate results on concrete inputs. -/
instance {ε α : Type} [DecidableEq ε] [DecidableEq α] : DecidableEq (Except ε α) := fun x y =>
  match x, y with
  | .ok a, .ok b => if h : a = b then .isTrue (by rw [h]) else .isFalse (by simp [h])
  | .error a, .error b => if h : a = b then .isTrue (by rw [h]) else .isFalse (by simp [h])
  | .ok _, .error _ => .isFalse (by simp)
  | .error _, .ok _ => .isFalse (by simp)

/-! ## Go map semantics over association lists -/

/-- Lookup in a Go map modelled as an association list: first entry with the key. -/
def goFind {α : Type} (m : List (String × α)) (k : String) : Option α :=
  (m.find? (fun p => p.1 == k)).map (·.2)

/-- Go map read with zero value: `m[k]` yields the zero value when `k` is absent. -/
def goFindD {α : Type} (m : List (String × α)) (k : String) (zero : α) : α :=
  (goFind m k).getD zero

/-- Go map assignment `m[k] = v`: replaces the entry if present, else appends it. -/
def goInsert {α : Type} : List (String × α) → String → α → List (String × α)
  | [], k, v => [(k, v)]
  | p :: rest, k, v => if p.1 == k then (k, v) :: rest else p :: goInsert rest k v

/-- Go `delete(m, k)`: removes every entry with the key (at most one in a real map). -/
def goErase {α : Type} (m : List (String × α)) (k : String) : List (String × α) :=
  m.filter (fun p => !(p.1 == k))

/-- Keys of an association list, for the uniqueness invariant of a real Go map. -/
def mapKeys {α : Type} (m : List (String × α)) : List String := m.map (·.1)

/-! ## Go string helpers: TrimSpace, HasPrefix, hex encoding -/

/-- White-space test used by `strings.TrimSpace` (restricted to the ASCII space
characters; the modelled strings never contain other Unicode space). -/
def isSpaceGo (c : Char) : Bool :=
  c = ' ' || c = '\t' || c = '\n' || c = '\x0b' || c = '\x0c' || c = '\r'

/-- Model of Go `strings.TrimSpace`: drop white space from both ends. -/
def goTrimSpace (s : String) : String :=
  String.mk (((s.data.dropWhile isSpaceGo).reverse.dropWhile isSpaceGo).reverse)

/-- Lower-case hex digit for a value below 16 (Go `encoding/hex` alphabet). -/
def hexDigitChar (n : Nat) : Char := if n < 10 then Char.ofNat (48 + n) else Char.ofNat (87 + n)

/-- The two hex digits of one byte. -/
def hexEncodeByte (b : Nat) : List Char := [hexDigitChar (b / 16 % 16), hexDigitChar (b % 16)]

/-- Model of Go `hex.EncodeToString`. -/
def hexEncode (bs : List Nat) : String := String.mk ((bs.map hexEncodeByte).flatten)

/-- Value of a hex digit accepted by Go `hex.DecodeString` (0-9, a-f, A-F). -/
def hexDigitVal (c : Char) : Option Nat :=
  if 48 ≤ c.toNat ∧ c.toNat ≤ 57 then some (c.toNat - 48)
  else if 97 ≤ c.toNat ∧ c.toNat ≤ 102 then some (c.toNat - 87)
  else if 65 ≤ c.toNat ∧ c.toNat ≤ 70 then some (c.toNat - 55)
  else none

def hexDecodeChars : List Char → Option (List Nat)
  | [] => some []
  | [_] => none
  | c1 :: c2 :: rest =>
    match hexDigitVal c1, hexDigitVal c2 with
    | some h, some l => (hexDecodeChars rest).map (fun bs => (h * 16 + l) :: bs)
    | _, _ => none

/-- Model of Go `hex.DecodeString`. -/
def hexDecode (s : String) : Option (List Nat) := hexDecodeChars s.data

/-! ## Model of `io.CopyN`

`goCopyN src n` returns the bytes actually written to the destination, the value
`CopyN` returns, and whether it returned a non-nil error.  `io.CopyN(dst, src, n)`
writes `min n (len src)` bytes and fails with `io.EOF` when the source is shorter
than `n`; for `n ≤ 0` it writes nothing and returns no error. -/
def goCopyN (src : List Nat) (n : Int) : List Nat × Int × Bool :=
  if n ≤ 0 then ([], 0, false)
  else if n ≤ (src.length : Int) then (src.take n.toNat, n, false)
  else (src, (src.length : Int), true)

/-! ## List-semantics helpers of `ListObjects`

The helper functions `TrimPrefix`, `HasNoDelimiter`, `HasDelimiter`, `SplitDelimiter`,
`SortU` and `RemoveDuplicates` that `cache.go` calls are declared in a donut utility
file that is not part of the provided sources; they are modelled here from the spec's
list semantics (§4.2): keys containing the delimiter after prefix-stripping are folded
into common prefixes (the portion up to and including the first delimiter occurrence),
keys without the delimiter remain individually listed, duplicates are removed from both
sets and both are lexicographically sorted. -/

/-- Byte-wise prefix test (Go `strings.HasPrefix`), over the character list. -/
def goHasPfx (p s : String) : Bool := p.data.isPrefixOf s.data

/-- Byte-wise lexicographic strict order on character lists, the order Go uses to
compare strings (`<`, `>` and `sort.Strings`). -/
def charListLt : List Char → List Char → Bool
  | [], [] => false
  | [], _ :: _ => true
  | _ :: _, [] => false
  | a :: as, b :: bs =>
    if a.toNat < b.toNat then true
    else if b.toNat < a.toNat then false
    else charListLt as bs

/-- Go string `<`. -/
def strLt (a b : String) : Bool := charListLt a.data b.data

/-- Go string `≤` (the negation of the reversed strict order). -/
def strLe (a b : String) : Bool := !(strLt b a)

/-- Does `sub` occur inside the character list (Go `strings.Contains`)? -/
def containsChars (sub : List Char) : List Char → Bool
  | [] => sub.isEmpty
  | c :: t => sub.isPrefixOf (c :: t) || containsChars sub t

/-- Go `strings.Contains`. -/
def goContains (s sub : String) : Bool := containsChars sub.data s.data

/-- The characters before the first occurrence of `sub` (the whole list if absent). -/
def splitFirstChars (sub : List Char) : List Char → List Char
  | [] => []
  | c :: t => if sub.isPrefixOf (c :: t) then [] else c :: splitFirstChars sub t

/-- Go `strings.Split(s, delim)[0]`: the portion before the first occurrence. -/
def goSplitFirst (s delim : String) : String := String.mk (splitFirstChars delim.data s.data)

/-- Modelled from the spec: strip the listing prefix from every candidate key
(Go `strings.TrimPrefix` keeps a string that does not carry the prefix unchanged). -/
def trimPfxAll (keys : List String) (pfx : String) : List String :=
  keys.map (fun s => if goHasPfx pfx s then s.drop pfx.length else s)

/-- Modelled from the spec: keys that do not contain the delimiter remain
individually listed. -/
def noDelim (keys : List String) (delim : String) : List String :=
  keys.filter (fun s => !(goContains s delim))

/-- Modelled from the spec: keys that contain the delimiter are folded into the
common-prefix set. -/
def hasDelim (keys : List String) (delim : String) : List String :=
  keys.filter (fun s => goContains s delim)

/-- Modelled from the spec: the portion of a key up to and including the first
delimiter occurrence (Go `strings.Split(s, delim)[0] + delim`). -/
def splitDelim (keys : List String) (delim : String) : List String :=
  keys.map (fun s => goSplitFirst s delim ++ delim)

/-- Modelled from the spec: remove duplicates, keeping first occurrences
(Go loop with a seen-set). -/
def removeDup (l : List String) : List String :=
  l.foldl (fun acc v => if acc.contains v then acc else acc ++ [v]) []

/-- Lexicographic insertion used by the model of Go `sort.Strings`. -/
def insertLeStr (x : String) : List String → List String
  | [] => [x]
  | y :: ys => if strLe x y then x :: y :: ys else y :: insertLeStr x ys

/-- Model of Go `sort.Strings`: lexicographically sorted rearrangement. -/
def sortStrings : List String → List String
  | [] => []
  | x :: xs => insertLeStr x (sortStrings xs)

/-- Modelled from the spec: sort and deduplicate the common-prefix set
(Go `SortU` collects into a set and sorts the keys). -/
def sortU (l : List String) : List String := sortStrings (removeDup l)

end S3Spec

namespace S3Spec.Donut

/-! ## Data model of the donut cache (`pkg/storage/donut/cache.go`)

`partMetadata` and `multiPartSession` maps of `storedBucket`, and the
`multiPartObjects` byte cache, are not read or written by any of the operations
embedded here (the multipart entry points are outside the provided core) and are
omitted from the state.  The `trove` byte cache is not part of the provided sources;
it is modelled from the spec as a keyed byte store (`objects`); its capacity- and
age-based eviction runs in a background sweep and is not triggered during the
modelled operations, so `Append` and `Set` are modelled as always succeeding. -/

/-- Object metadata (`ObjectMetadata`): the `Metadata` string map holds the content
type; `Created` is the `time.Now()` instant passed into the operation. -/
structure ObjectMetadata where
  bucket : String
  object : String
  metadata : List (String × String)
  created : Nat
  md5Sum : String
  size : Int
deriving DecidableEq

/-- The Go zero value `ObjectMetadata{}`, produced by reading an absent map key. -/
def zeroObjectMetadata : ObjectMetadata := ⟨"", "", [], 0, "", 0⟩

/-- Bucket metadata (`BucketMetadata`): name, creation time and ACL. -/
structure BucketMetadata where
  name : String
  created : Nat
  acl : String
deriving DecidableEq

/-- A stored bucket (`storedBucket`): bucket metadata plus the object-metadata map
keyed by `bucket/object`. -/
structure storedBucket where
  bucketMetadata : BucketMetadata
  objectMetadata : List (String × ObjectMetadata)
deriving DecidableEq

/-- Error kinds returned by the cache operations (`pkg/storage/donut` error types). -/
inductive CacheErr where
  | bucketNameInvalid
  | objectNameInvalid
  | bucketNotFound
  | objectNotFound
  | internalError
  | ioError
  | invalidRange
  | entityTooLarge
  | badDigest
  | invalidDigest
  | objectExists
  | tooManyBuckets
  | invalidACL
  | bucketExists
  | backendError
deriving DecidableEq

/-- Results of the donut backend's `ListObjects`. -/
structure DonutListResult where
  objects : List (String × ObjectMetadata)
  commonPfxs : List String
  isTruncated : Bool

/-- The persistent donut backend behind the cache, an external collaborator.
Modelled from the spec: `put(bytes) → hash` / `get(hash) → byte-stream` content
store behind the per-bucket persistent layer; each method is an abstract function,
`none` meaning the backend returned an error. -/
structure DonutBackend where
  getObject : String → String → Option (List Nat)
  putObject : String → String → String → List Nat → String → Option ObjectMetadata
  makeBucket : String → String → Bool
  listObjects : String → String → String → String → Int → Option DonutListResult
  getObjectMetadata : String → String → Option ObjectMetadata

/-- The name-syntax validators (`IsValidBucket`, `IsValidObjectName`, `IsValidPrefix`,
`IsValidBucketACL`) are declared in a donut utility file that is not part of the
provided sources.  Modelled from the spec, which only says that bucket/object name
syntax and the ACL are validated: the checks are abstract boolean predicates. -/
structure NameRules where
  isValidBucket : String → Bool
  isValidObjectName : String → Bool
  isValidPfx : String → Bool
  isValidBucketACL : String → Bool

/-- Cache state (`Cache`): the stored-bucket map, the trove byte cache keyed by
`bucket/object`, the configured maximum size, and the optional persistent backend. -/
structure CacheState where
  storedBuckets : List (String × storedBucket)
  objects : List (String × List Nat)
  maxSize : Nat
  donut : Option DonutBackend

/-- `trove.Cache.Get`. -/
def troveGet (objects : List (String × List Nat)) (k : String) : Option (List Nat) :=
  goFind objects k

/-- `trove.Cache.Len`. -/
def troveLen (objects : List (String × List Nat)) (k : String) : Nat :=
  (goFindD objects k []).length

/-- `trove.Cache.Set` (modelled from the spec, always succeeds; see the note above). -/
def troveSet (objects : List (String × List Nat)) (k : String) (v : List Nat) :
    List (String × List Nat) :=
  goInsert objects k v

/-- `trove.Cache.Append` (modelled from the spec, always succeeds; appends to the
existing entry or creates one). -/
def troveAppend (objects : List (String × List Nat)) (k : String) (v : List Nat) :
    List (String × List Nat) :=
  goInsert objects k (goFindD objects k [] ++ v)

/-- The proxy writer (`proxyWriter`): tees bytes written through it into
`writtenBytes` while forwarding them to the wrapped writer. -/
structure ProxyWriter where
  writtenBytes : List Nat
deriving DecidableEq

/-! ## Cache operations -/

/-- Result of `GetObject`: the returned `(int64, error)` pair, the bytes the call
wrote to the caller's writer `w`, and the state after the call. -/
structure GetResult where
  ret : Except CacheErr Int
  out : List Nat
  state : CacheState

/-- `Cache.GetObject` (`cache.go:107`). -/
def GetObject (c : CacheState) (rules : NameRules) (bucket object : String) : GetResult :=
  if !(rules.isValidBucket bucket) then ⟨.error .bucketNameInvalid, [], c⟩
  else if !(rules.isValidObjectName object) then ⟨.error .objectNameInvalid, [], c⟩
  else if (goFind c.storedBuckets bucket).isNone then ⟨.error .bucketNotFound, [], c⟩
  else
    let objectKey := bucket ++ "/" ++ object
    match troveGet c.objects objectKey with
    | none =>
      match c.donut with
      | some d =>
        match d.getObject bucket object with
        | none => ⟨.error .backendError, [], c⟩
        | some content =>
          -- pw := newProxyWriter(w); written, err := io.CopyN(pw, reader, size):
          -- the backend stream holds exactly `content` and reports its length as size,
          -- so the copy forwards `content` to w and tees it into pw.writtenBytes
          let pw : ProxyWriter := ⟨[]⟩
          let copied := goCopyN content (content.length : Int)
          if copied.2.2 then ⟨.error .ioError, copied.1, c⟩
          else
            let pw : ProxyWriter := ⟨pw.writtenBytes ++ copied.1⟩
            -- cache.objects.Set(objectKey, pw.writtenBytes)
            ⟨.ok copied.2.1, copied.1,
             { c with objects := troveSet c.objects objectKey pw.writtenBytes }⟩
      | none => ⟨.error .objectNotFound, [], c⟩
    | some data =>
      -- written, err := io.CopyN(w, bytes.NewBuffer(data), int64(cache.objects.Len(objectKey)))
      let copied := goCopyN data ((troveLen c.objects objectKey : Nat) : Int)
      if copied.2.2 then ⟨.error .ioError, copied.1, c⟩
      else ⟨.ok copied.2.1, copied.1, c⟩

/-- Return of `GetPartialObject`: ok / error / run-time panic (out-of-range slice). -/
inductive PRet where
  | ok (n : Int)
  | err (e : CacheErr)
  | panicked
deriving DecidableEq

/-- Result of `GetPartialObject`. -/
structure PartialResult where
  ret : PRet
  out : List Nat
  state : CacheState

/-- `Cache.GetPartialObject` (`cache.go:163`).  Note that, unlike `GetObject`, it
never checks that the bucket exists in `storedBuckets`; and on the backend path the
copy of the requested range targets `w` directly, so the freshly created proxy
writer's buffer stays empty and that empty buffer is what gets cached. -/
def GetPartialObject (c : CacheState) (rules : NameRules) (bucket object : String)
    (start length : Int) : PartialResult :=
  if !(rules.isValidBucket bucket) then ⟨.err .bucketNameInvalid, [], c⟩
  else if !(rules.isValidObjectName object) then ⟨.err .objectNameInvalid, [], c⟩
  else if start < 0 then ⟨.err .invalidRange, [], c⟩
  else
    let objectKey := bucket ++ "/" ++ object
    match troveGet c.objects objectKey with
    | none =>
      match c.donut with
      | some d =>
        match d.getObject bucket object with
        | none => ⟨.err .backendError, [], c⟩
        | some content =>
          -- io.CopyN(ioutil.Discard, reader, start) advances the backend stream
          let disc := goCopyN content start
          if disc.2.2 then ⟨.err .ioError, [], c⟩
          else
            -- pw := newProxyWriter(w); written, err := io.CopyN(w, reader, length):
            -- the copy targets w, not pw, so pw.writtenBytes stays empty
            let pw : ProxyWriter := ⟨[]⟩
            let copied := goCopyN (content.drop start.toNat) length
            if copied.2.2 then ⟨.err .ioError, copied.1, c⟩
            else
              -- cache.objects.Set(objectKey, pw.writtenBytes)
              ⟨.ok copied.2.1, copied.1,
               { c with objects := troveSet c.objects objectKey pw.writtenBytes }⟩
      | none => ⟨.err .objectNotFound, [], c⟩
    | some data =>
      -- data[start:] panics when start exceeds the slice length
      if (data.length : Int) < start then ⟨.panicked, [], c⟩
      else
        -- written, err := io.CopyN(w, bytes.NewBuffer(data[start:]), length)
        let copied := goCopyN (data.drop start.toNat) length
        if copied.2.2 then ⟨.err .ioError, copied.1, c⟩
        else ⟨.ok copied.2.1, copied.1, c⟩

/-- `Cache.GetObjectMetadata` (`cache.go:576`). -/
def GetObjectMetadata (c : CacheState) (rules : NameRules) (bucket key : String) :
    Except CacheErr ObjectMetadata × CacheState :=
  if !(rules.isValidBucket bucket) then (.error .bucketNameInvalid, c)
  else if !(rules.isValidObjectName key) then (.error .objectNameInvalid, c)
  else
    match goFind c.storedBuckets bucket with
    | none => (.error .bucketNotFound, c)
    | some sb =>
      let objectKey := bucket ++ "/" ++ key
      match goFind sb.objectMetadata objectKey with
      | some m => (.ok m, c)
      | none =>
        match c.donut with
        | some d =>
          match d.getObjectMetadata bucket key with
          | none => (.error .backendError, c)
          | some m =>
            -- the local storedBucket shares the objectMetadata map by reference,
            -- so the insert is visible through cache.storedBuckets
            let sb1 := { sb with objectMetadata := goInsert sb.objectMetadata objectKey m }
            (.ok m, { c with storedBuckets := goInsert c.storedBuckets bucket sb1 })
        | none => (.error .objectNotFound, c)

/-- `totalBuckets` (`cache.go:41`). -/
def totalBuckets : Nat := 100

/-- `Cache.MakeBucket` (`cache.go:427`). -/
def MakeBucket (c : CacheState) (rules : NameRules) (now : Nat) (bucketName acl : String) :
    Except CacheErr Unit × CacheState :=
  if c.storedBuckets.length == totalBuckets then (.error .tooManyBuckets, c)
  else if !(rules.isValidBucket bucketName) then (.error .bucketNameInvalid, c)
  else if !(rules.isValidBucketACL acl) then (.error .invalidACL, c)
  else if (goFind c.storedBuckets bucketName).isSome then (.error .bucketExists, c)
  else
    let acl1 := if goTrimSpace acl = "" then "private" else acl
    let mirror : Bool :=
      match c.donut with
      | some d => d.makeBucket bucketName acl1
      | none => true
    if !mirror then (.error .backendError, c)
    else
      let newBucket : storedBucket := ⟨⟨bucketName, now, acl1⟩, []⟩
      (.ok (), { c with storedBuckets := goInsert c.storedBuckets bucketName newBucket })

/-- Lexicographic-by-name insertion used by the model of `sort.Sort(byBucketName(...))`. -/
def insertLeBM (x : BucketMetadata) : List BucketMetadata → List BucketMetadata
  | [] => [x]
  | y :: ys => if strLe x.name y.name then x :: y :: ys else y :: insertLeBM x ys

/-- Sorted-by-name rearrangement (`byBucketName`, `cache.go:557`). -/
def sortByName : List BucketMetadata → List BucketMetadata
  | [] => []
  | x :: xs => insertLeBM x (sortByName xs)

/-- `Cache.ListBuckets` (`cache.go:564`): all bucket metadata sorted by name. -/
def ListBuckets (c : CacheState) : List BucketMetadata :=
  sortByName (c.storedBuckets.map (fun p => p.2.bucketMetadata))

/-! ## CreateObject -/

/-- The fixed read-chunk size of `createObject`'s streaming loop (1 MiB). -/
def chunkSize : Nat := 1048576

/-- Result of `CreateObject` / `createObject`: the returned metadata or error, the
state after the call, and the number of `Read` calls made on the supplied reader. -/
structure CreateResult where
  ret : Except CacheErr ObjectMetadata
  state : CacheState
  reads : Nat

/-- The streaming read/hash/append loop of `createObject` (`cache.go:375`), written
with an explicit fuel so that it is structurally recursive; the fuel never runs out
because each iteration consumes at least one byte.  Each iteration reads up to
1 MiB, feeds the chunk to the running hash, and appends it to the cache entry; the
final read returns `(0, io.EOF)` and ends the loop.  Returns the updated byte
store, the bytes fed to the hash, the total length, and the number of `Read`
calls. -/
def createLoopF (fuel : Nat) (objects : List (String × List Nat)) (objectKey : String)
    (data : List Nat) (hashAcc : List Nat) (total : Nat) (reads : Nat) :
    List (String × List Nat) × List Nat × Nat × Nat :=
  match fuel with
  | 0 => (objects, hashAcc, total, reads)
  | fuel + 1 =>
    if data.isEmpty then (objects, hashAcc, total, reads + 1)
    else
      let chunk := data.take chunkSize
      createLoopF fuel (troveAppend objects objectKey chunk) objectKey (data.drop chunkSize)
        (hashAcc ++ chunk) (total + chunk.length) (reads + 1)

/-- The loop of `createObject`, with enough fuel to consume the whole reader. -/
def createLoop (objects : List (String × List Nat)) (objectKey : String) (data : List Nat)
    (hashAcc : List Nat) (total : Nat) (reads : Nat) :
    List (String × List Nat) × List Nat × Nat × Nat :=
  createLoopF (data.length + 1) objects objectKey data hashAcc total reads

/-- Outcome of `isMD5SumEqual` (`cache.go:288`): nil, hex-decode error, mismatch
("bad digest"), or "invalid argument" when either trimmed argument is empty. -/
inductive MD5Cmp where
  | ok
  | errDecode
  | errMismatch
  | errInvalidArg
deriving DecidableEq

/-- `isMD5SumEqual` (`cache.go:288`). -/
def isMD5SumEqual (expectedMD5Sum actualMD5Sum : String) : MD5Cmp :=
  if goTrimSpace expectedMD5Sum ≠ "" ∧ goTrimSpace actualMD5Sum ≠ "" then
    match hexDecode expectedMD5Sum with
    | none => .errDecode
    | some expectedBytes =>
      match hexDecode actualMD5Sum with
      | none => .errDecode
      | some actualBytes =>
        if expectedBytes = actualBytes then .ok else .errMismatch
  else .errInvalidArg

/-- `Cache.createObject` (`cache.go:323`).  The reader is modelled as the byte list
it delivers (`bytes.Reader` semantics: each read fills up to the chunk size and the
final read returns `(0, io.EOF)`).  `md5` is the abstract MD5 digest function
(crypto/md5, an external library) and `b64Decode` the abstract base64 decoder
(encoding/base64); `now` is the `time.Now()` instant.  On the backend path the
reader is consumed by the backend itself, so `reads` counts only the manual
chunking loop's `Read` calls. -/
def createObject (c : CacheState) (rules : NameRules) (md5 : List Nat → List Nat)
    (b64Decode : String → Option (List Nat)) (now : Nat)
    (bucket key contentType expectedMD5Sum : String) (size : Int) (data : List Nat) :
    CreateResult :=
  if !(rules.isValidBucket bucket) then ⟨.error .bucketNameInvalid, c, 0⟩
  else if !(rules.isValidObjectName key) then ⟨.error .objectNameInvalid, c, 0⟩
  else
    match goFind c.storedBuckets bucket with
    | none => ⟨.error .bucketNotFound, c, 0⟩
    | some sb =>
      let objectKey := bucket ++ "/" ++ key
      if (goFind sb.objectMetadata objectKey).isSome then ⟨.error .objectExists, c, 0⟩
      else
        let contentType1 := if contentType = "" then "application/octet-stream" else contentType
        let contentType2 := goTrimSpace contentType1
        -- a supplied digest is base64-decoded and re-encoded as hex
        let expDecoded : Option String :=
          if goTrimSpace expectedMD5Sum = "" then some expectedMD5Sum
          else
            match b64Decode (goTrimSpace expectedMD5Sum) with
            | none => none
            | some bs => some (hexEncode bs)
        match expDecoded with
        | none => ⟨.error .invalidDigest, c, 0⟩
        | some expMD5 =>
          match c.donut with
          | some d =>
            match d.putObject bucket key expMD5 data contentType2 with
            | none => ⟨.error .backendError, c, 0⟩
            | some objMetadata =>
              let sb1 :=
                { sb with objectMetadata := goInsert sb.objectMetadata objectKey objMetadata }
              ⟨.ok objMetadata,
               { c with storedBuckets := goInsert c.storedBuckets bucket sb1 }, 0⟩
          | none =>
            let looped := createLoop c.objects objectKey data [] 0 0
            let md5Sum := hexEncode (md5 looped.2.1)
            -- verify the computed digest against the supplied one, if any
            if goTrimSpace expMD5 ≠ "" ∧ isMD5SumEqual (goTrimSpace expMD5) md5Sum ≠ .ok then
              ⟨.error .badDigest, { c with objects := looped.1 }, looped.2.2.2⟩
            else
              let newObject : ObjectMetadata :=
                ⟨bucket, key, [("contentType", contentType2)], now, md5Sum, (looped.2.2.1 : Int)⟩
              let sb1 :=
                { sb with objectMetadata := goInsert sb.objectMetadata objectKey newObject }
              let c1 := { c with objects := looped.1 }
              ⟨.ok newObject,
               { c1 with storedBuckets := goInsert c1.storedBuckets bucket sb1 },
               looped.2.2.2⟩

/-- `Cache.CreateObject` (`cache.go:307`): the size guard in front of `createObject`. -/
def CreateObject (c : CacheState) (rules : NameRules) (md5 : List Nat → List Nat)
    (b64Decode : String → Option (List Nat)) (now : Nat)
    (bucket key contentType expectedMD5Sum : String) (size : Int) (data : List Nat) :
    CreateResult :=
  if size > (c.maxSize : Int) then ⟨.error .entityTooLarge, c, 0⟩
  else createObject c rules md5 b64Decode now bucket key contentType expectedMD5Sum size data

/-! ## ListObjects -/

/-- `BucketResourcesMetadata`: the listing request/response parameters threaded
through `ListObjects`. -/
structure BucketResourcesMetadata where
  pfx : String
  marker : String
  delimiter : String
  maxkeys : Int
  isTruncated : Bool
  commonPrefixes : List String
  nextMarker : String
deriving DecidableEq

/-- `BucketResourcesMetadata.IsDelimiterSet`. -/
def BucketResourcesMetadata.isDelimiterSet (r : BucketResourcesMetadata) : Bool :=
  goTrimSpace r.delimiter ≠ ""

/-- The zero value `BucketResourcesMetadata{IsTruncated: false}` returned on errors. -/
def zeroResources : BucketResourcesMetadata := ⟨"", "", "", 0, false, [], ""⟩

/-- Return of `ListObjects`: ok / error / run-time panic (`results[len(results)-1]`
on an empty slice). -/
inductive LORet where
  | ok
  | err (e : CacheErr)
  | panicked
deriving DecidableEq

/-- Result of `ListObjects`. -/
structure ListObjectsResult where
  objects : List ObjectMetadata
  resources : BucketResourcesMetadata
  ret : LORet

/-- Outcome of the key loop of `ListObjects` (`cache.go:540`). -/
inductive LoopOut where
  | done (results : List ObjectMetadata)
  | truncated (results : List ObjectMetadata) (res : BucketResourcesMetadata)
  | panicked

/-- Candidate-key collection of `ListObjects` (`cache.go:511`): keys of the bucket's
metadata map whose full key has `bucket/` as a path prefix, whose remainder starts
with the listing prefix, and which sort strictly after the marker. -/
def candidateKeys (om : List (String × ObjectMetadata)) (bucket pfx marker : String) :
    List String :=
  om.foldl (fun acc kv =>
    if goHasPfx (bucket ++ "/") kv.1 then
      let key := kv.1.drop (bucket.length + 1)
      if goHasPfx pfx key then
        if strLt marker key then acc ++ [key] else acc
      else acc
    else acc) []

/-- Prefix-stripping and delimiter split of `ListObjects` (`cache.go:521`): returns
the common-prefix set and the individually listed keys. -/
def delimPipeline (keys0 : List String) (pfx delim : String) : List String × List String :=
  let keys1 := if goTrimSpace pfx ≠ "" then trimPfxAll keys0 pfx else keys0
  if goTrimSpace delim ≠ "" then
    (sortU (splitDelim (hasDelim keys1 delim) delim), noDelim keys1 delim)
  else ([], keys1)

/-- The key loop of `ListObjects` (`cache.go:540`): appends the metadata of each
filtered key until `maxKeys` entries are reached, in which case it returns early
with `isTruncated` set (and, if a delimiter is set, `nextMarker`, reading the last
element of `results`, which panics when `results` is empty). -/
def listLoop (om : List (String × ObjectMetadata)) (bucket pfx : String)
    (res : BucketResourcesMetadata) (keys : List String) (results : List ObjectMetadata) :
    LoopOut :=
  match keys with
  | [] => .done results
  | k :: ks =>
    if (results.length : Int) == res.maxkeys then
      let res1 := { res with isTruncated := true }
      if res1.isTruncated && res1.isDelimiterSet then
        match results.getLast? with
        | none => .panicked
        | some last => .truncated results { res1 with nextMarker := last.object }
      else .truncated results res1
    else
      listLoop om bucket pfx res ks
        (results ++ [goFindD om (bucket ++ "/" ++ pfx ++ k) zeroObjectMetadata])

/-- `Cache.ListObjects` (`cache.go:471`). -/
def ListObjects (c : CacheState) (rules : NameRules) (bucket : String)
    (resources : BucketResourcesMetadata) : ListObjectsResult :=
  if !(rules.isValidBucket bucket) then ⟨[], zeroResources, .err .bucketNameInvalid⟩
  else if !(rules.isValidPfx resources.pfx) then ⟨[], zeroResources, .err .objectNameInvalid⟩
  else
    match goFind c.storedBuckets bucket with
    | none => ⟨[], zeroResources, .err .bucketNotFound⟩
    | some sb =>
      match c.donut with
      | some d =>
        match d.listObjects bucket resources.pfx resources.marker resources.delimiter
            resources.maxkeys with
        | none => ⟨[], zeroResources, .err .backendError⟩
        | some lo =>
          let res0 := { resources with commonPrefixes := lo.commonPfxs }
          let res1 := { res0 with isTruncated := lo.isTruncated }
          if res1.isTruncated && res1.isDelimiterSet then
            -- resources.NextMarker = results[len(results)-1].Object with results still nil
            ⟨[], res1, .panicked⟩
          else
            let keys := sortStrings (lo.objects.map (·.1))
            ⟨keys.map (fun k => goFindD lo.objects k zeroObjectMetadata), res1, .ok⟩
      | none =>
        let pf := delimPipeline
          (candidateKeys sb.objectMetadata bucket resources.pfx resources.marker)
          resources.pfx resources.delimiter
        let res1 := { resources with
          commonPrefixes := resources.commonPrefixes ++ pf.1.map (fun p => resources.pfx ++ p) }
        let filteredKeys := sortStrings (removeDup pf.2)
        match listLoop sb.objectMetadata bucket resources.pfx res1 filteredKeys [] with
        | .panicked => ⟨[], res1, .panicked⟩
        | .truncated results res2 => ⟨results, res2, .ok⟩
        | .done results =>
          ⟨results,
           { res1 with commonPrefixes := sortStrings (removeDup res1.commonPrefixes) }, .ok⟩

end S3Spec.Donut

namespace S3Spec.S3X

/-! ## Ledger embedding (`cmd/gateway/s3x/gateway-s3x-ledger.go`)

The `Ledger` protobuf message maps bucket names to `LedgerBucketEntry` values
(non-nullable) and upload IDs to `*MultipartUpload` pointers
(`make(map[string]*MultipartUpload)` in `NewMultipartUpload`).  Reading an absent
key of the pointer map yields a nil pointer, and a subsequent field access panics;
that outcome is modelled explicitly as `panicNilDeref`.  `ledgerStore.BucketExists`
is declared outside the provided sources and is modelled from the spec
("fails with `BucketExists` if present", "a bucket entry is created only after the
corresponding bucket exists") as membership in the ledger's bucket map. -/

/-- `ObjectPartInfo` as used by the ledger: caller-supplied part number and the
content hash of the part's data. -/
structure ObjectPartInfo where
  number : Int
  dataHash : String
deriving DecidableEq

/-- `MultipartUpload`: one upload session, scoped to a (bucket, object) pair,
holding its recorded parts in append order. -/
structure MultipartUpload where
  bucket : String
  object : String
  id : String
  objectParts : List ObjectPartInfo
deriving DecidableEq

/-- `LedgerBucketEntry`: object-name → content-hash map plus the bucket's own hash. -/
structure LedgerBucketEntry where
  objects : List (String × String)
  name : String
  ipfsHash : String
deriving DecidableEq

/-- `Ledger`: the buckets map is non-nullable; the multipart map is a Go map with
pointer values that starts out nil (`none`). -/
structure Ledger where
  buckets : List (String × LedgerBucketEntry)
  multipartUploads : Option (List (String × MultipartUpload))
deriving DecidableEq

/-- Ledger error values. -/
inductive LedgerErr where
  | invalidUploadID
  | bucketDoesNotExist
  | bucketExists
deriving DecidableEq

/-- Outcome of a ledger call: a value, an error, or a nil-pointer-dereference panic. -/
inductive LOut (α : Type) where
  | ok (a : α)
  | err (e : LedgerErr)
  | panicNilDeref
deriving DecidableEq

/-- `ledgerStore.BucketExists`.  Modelled from the spec: not part of the provided
sources; a bucket exists iff the ledger's bucket map has an entry for it. -/
def BucketExists (l : Ledger) (bucket : String) : Bool :=
  (goFind l.buckets bucket).isSome

/-- `Ledger.multipartExists` (`gateway-s3x-ledger.go:287`): nil map → invalid upload
ID; otherwise `m.MultipartUploads[id].Id` is read, which dereferences a nil pointer
when the id is absent, and compares the stored id against the empty string. -/
def multipartExists (l : Ledger) (id : String) : LOut Unit :=
  match l.multipartUploads with
  | none => .err .invalidUploadID
  | some m =>
    match goFind m id with
    | none => .panicNilDeref
    | some u => if u.id = "" then .err .invalidUploadID else .ok ()

/-- `Ledger.deleteMultipartID` (`gateway-s3x-ledger.go:297`). -/
def deleteMultipartID (l : Ledger) (bucketName multipartID : String) : Ledger :=
  { l with multipartUploads := l.multipartUploads.map (fun m => goErase m multipartID) }

/-- `ledgerStore.AbortMultipartUpload` (`gateway-s3x-ledger.go:24`). -/
def AbortMultipartUpload (l : Ledger) (bucket multipartID : String) : LOut Unit × Ledger :=
  if !(BucketExists l bucket) then (.err .bucketDoesNotExist, l)
  else
    match multipartExists l multipartID with
    | .panicNilDeref => (.panicNilDeref, l)
    | .err e => (.err e, l)
    | .ok _ => (.ok (), deleteMultipartID l bucket multipartID)

/-- `ledgerStore.NewMultipartUpload` (`gateway-s3x-ledger.go:39`): allocates the
pointer map on first use and installs (or silently overwrites) the session. -/
def NewMultipartUpload (l : Ledger) (bucketName objectName multipartID : String) :
    LOut Unit × Ledger :=
  if !(BucketExists l bucketName) then (.err .bucketDoesNotExist, l)
  else
    let m := l.multipartUploads.getD []
    let m1 := goInsert m multipartID ⟨bucketName, objectName, multipartID, []⟩
    (.ok (), { l with multipartUploads := some m1 })

/-- `ledgerStore.PutObjectPart` (`gateway-s3x-ledger.go:59`): appends a part record
to the session identified by the upload ID. -/
def PutObjectPart (l : Ledger) (bucketName objectName partHash multipartID : String)
    (partNumber : Int) : LOut Unit × Ledger :=
  if !(BucketExists l bucketName) then (.err .bucketDoesNotExist, l)
  else
    match multipartExists l multipartID with
    | .panicNilDeref => (.panicNilDeref, l)
    | .err e => (.err e, l)
    | .ok _ =>
      match l.multipartUploads with
      | none => (.panicNilDeref, l)
      | some m =>
        match goFind m multipartID with
        | none => (.panicNilDeref, l)
        | some mpart =>
          let mpart1 :=
            { mpart with objectParts := mpart.objectParts ++ [⟨partNumber, partHash⟩] }
          (.ok (), { l with multipartUploads := some (goInsert m multipartID mpart1) })

/-- `ledgerStore.NewBucket` (`gateway-s3x-ledger.go:80`). -/
def NewBucket (l : Ledger) (name hash : String) : LOut Unit × Ledger :=
  if BucketExists l name then (.err .bucketExists, l)
  else (.ok (), { l with buckets := goInsert l.buckets name ⟨[], "", hash⟩ })

/-- `ledgerStore.MultipartIDExists` (`gateway-s3x-ledger.go:155`). -/
def MultipartIDExists (l : Ledger) (id : String) : LOut Unit :=
  multipartExists l id

/-- `ledgerStore.GetMultipartHashes` (`gateway-s3x-ledger.go:222`): after checking
the bucket and the upload ID, the code reads `ls.l.MultipartUploads[bucket]` — the
bucket name, not the upload ID — and dereferences the resulting pointer. -/
def GetMultipartHashes (l : Ledger) (bucket multipartID : String) : LOut (List String) :=
  if !(BucketExists l bucket) then .err .bucketDoesNotExist
  else
    match multipartExists l multipartID with
    | .panicNilDeref => .panicNilDeref
    | .err e => .err e
    | .ok _ =>
      match goFind (l.multipartUploads.getD []) bucket with
      | none => .panicNilDeref
      | some mpart => .ok (mpart.objectParts.map (fun p => p.dataHash))

end S3Spec.S3X

namespace S3Spec.Lifecycle

/-! ## Lifecycle sweeper loop (`cmd/daily-lifecycle.go`, `startDailyLifecycle`)

One iteration of the endless loop is modelled as the list of externally visible
actions it performs, in order: the statuses of all peers are summarised into the
most recent sweep-completion time, the loop optionally sleeps the tick, and then
invokes `lifecycleRound`, branching on the round's outcome.  Times are nanoseconds
since the epoch as `Int` (the zero time being `0`), matching `time.Time`/
`time.Duration` arithmetic. -/

/-- `bgLifecycleInterval = 24 * time.Hour` in nanoseconds. -/
def bgLifecycleInterval : Int := 24 * 60 * 60 * 1000000000

/-- `bgLifecycleTick = time.Hour` in nanoseconds. -/
def bgLifecycleTick : Int := 60 * 60 * 1000000000

/-- `time.Minute` in nanoseconds. -/
def oneMinute : Int := 60 * 1000000000

/-- Externally visible actions of one loop iteration. -/
inductive Action where
  | sleep (d : Int)
  | runLifecycleRound
  | logRoundOutcome
deriving DecidableEq

/-- Outcome of `lifecycleRound` as examined by the loop's type switch: an
`OperationTimedOut` error, or anything else (including nil, which also falls to
the `default` branch of `switch err.(type)`). -/
inductive RoundOutcome where
  | operationTimedOut
  | other
deriving DecidableEq

/-- `computeLastLifecycleActivity`: the most recent `LastActivity` over all peer
statuses, starting from the zero time. -/
def computeLastLifecycleActivity (status : List Int) : Int :=
  status.foldl (fun lastAct st => if st > lastAct then st else lastAct) 0

/-- The actions the loop performs after `lifecycleRound` returns. -/
def roundFollowup : RoundOutcome → List Action
  | .operationTimedOut => [.sleep bgLifecycleTick]
  | .other => [.logRoundOutcome, .sleep oneMinute]

/-- One iteration of the `for` loop of `startDailyLifecycle` (`daily-lifecycle.go`):
if the cluster-wide last activity is non-zero and younger than the interval, the
iteration sleeps one tick — and then still falls through to `lifecycleRound`
(there is no `continue` after the sleep). -/
def iterationTrace (status : List Int) (now : Int) (outcome : RoundOutcome) : List Action :=
  let lastAct := computeLastLifecycleActivity status
  (if lastAct ≠ 0 ∧ now - lastAct < bgLifecycleInterval then [Action.sleep bgLifecycleTick]
   else []) ++ [Action.runLifecycleRound] ++ roundFollowup outcome

end S3Spec.Lifecycle

namespace S3Spec.Donut

/-! ## Concrete fixtures used to evaluate the theorems on explicit inputs -/

/-- Validators that accept every name (witness instantiation of the abstract checks). -/
def rulesTrue : NameRules := ⟨fun _ => true, fun _ => true, fun _ => true, fun _ => true⟩

/-- A concrete stand-in for the abstract MD5 digest function. -/
def md5Fix : List Nat → List Nat := fun _ => List.replicate 16 7

/-- A concrete stand-in for the abstract base64 decoder: decodes only `"QQ=="`. -/
def b64Fix : String → Option (List Nat) := fun s => if s = "QQ==" then some [65] else none

/-- An empty bucket named `foo`. -/
def sbEmptyFoo : storedBucket := ⟨⟨"foo", 0, "private"⟩, []⟩

/-- A cacheless-backend state holding only the empty bucket `foo`. -/
def cacheFoo : CacheState := ⟨[("foo", sbEmptyFoo)], [], 1000, none⟩

/-- A state whose byte cache holds `foo/obj ↦ [10, 20, 30, 40]`. -/
def cacheResident : CacheState := ⟨[("foo", sbEmptyFoo)], [("foo/obj", [10, 20, 30, 40])], 1000, none⟩

/-- Metadata of an existing object `foo/obj`. -/
def metaFoo : ObjectMetadata := ⟨"foo", "obj", [], 0, "", 1⟩

/-- The bucket `foo` already holding metadata for `foo/obj`. -/
def sbWithObj : storedBucket := ⟨⟨"foo", 0, "private"⟩, [("foo/obj", metaFoo)]⟩

/-- A state in which `foo/obj` already exists. -/
def cacheWithObj : CacheState := ⟨[("foo", sbWithObj)], [], 1000, none⟩

/-- Stored metadata of `obj1` in bucket `foo5`. -/
def metaObj1 : ObjectMetadata := ⟨"foo5", "obj1", [], 0, "", 3⟩

/-- Stored metadata of `obj2` in bucket `foo5`. -/
def metaObj2 : ObjectMetadata := ⟨"foo5", "obj2", [], 0, "", 3⟩

/-- The bucket `foo5` holding exactly the objects `obj1` and `obj2`. -/
def sbFoo5 : storedBucket :=
  ⟨⟨"foo5", 0, "private"⟩, [("foo5/obj1", metaObj1), ("foo5/obj2", metaObj2)]⟩

/-- A cacheless-backend state holding only `foo5` with `obj1` and `obj2`. -/
def cacheFoo5 : CacheState := ⟨[("foo5", sbFoo5)], [], 1000, none⟩

/-- The `ListObjects` request of C2: prefix `o`, empty marker, delimiter `1`. -/
def listReq (maxkeys : Int) : BucketResourcesMetadata := ⟨"o", "", "1", maxkeys, false, [], ""⟩

/-- A backend holding one object `bx/ox` with bytes `[1, 2, 3]`. -/
def backendBx : DonutBackend :=
  ⟨fun b o => if b = "bx" && o = "ox" then some [1, 2, 3] else none,
   fun _ _ _ _ _ => none, fun _ _ => true, fun _ _ _ _ _ => none, fun _ _ => none⟩

/-- A cold cache in front of `backendBx`, with the bucket `bx` present. -/
def cacheBx : CacheState := ⟨[("bx", ⟨⟨"bx", 0, "private"⟩, []⟩)], [], 1000, some backendBx⟩

/-- Ninety-nine distinct stored buckets `b0 … b98`. -/
def buckets99 : List (String × storedBucket) :=
  (List.range 99).map (fun i => ("b" ++ toString i, ⟨⟨"b" ++ toString i, 0, "private"⟩, []⟩))

/-- A state one bucket below the `totalBuckets` ceiling. -/
def cache99 : CacheState := ⟨buckets99, [], 1000, none⟩

end S3Spec.Donut

namespace S3Spec.S3X

/-- A ledger tracking the bucket `bucket1` with a nil multipart map. -/
def ledgerB1 : Ledger := ⟨[("bucket1", ⟨[], "", "h0"⟩)], none⟩

/-- `ledgerB1` after starting upload `upload1` and recording one part with hash `h`. -/
def ledgerUp1 : Ledger :=
  (PutObjectPart (NewMultipartUpload ledgerB1 "bucket1" "obj" "upload1").2
    "bucket1" "obj" "h" "upload1" 1).2

end S3Spec.S3X

namespace S3Spec

/-! ## Support lemmas -/

@[simp] theorem goFind_nil {α : Type} (k : String) : goFind ([] : List (String × α)) k = none := rfl

@[simp] theorem goFind_cons {α : Type} (k k' : String) (v : α) (m : List (String × α)) :
    goFind ((k', v) :: m) k = if k' = k then some v else goFind m k := by
  by_cases h : k' = k
  · subst h; simp [goFind, List.find?]
  · simp [goFind, List.find?, h, show (k' == k) = false from by simp [h]]

@[simp] theorem goFind_append {α : Type} (m₁ m₂ : List (String × α)) (k : String) :
    goFind (m₁ ++ m₂) k = ((goFind m₁ k).or (goFind m₂ k)) := by
  induction m₁ with
  | nil => simp
  | cons p m ih =>
    obtain ⟨k', v⟩ := p
    by_cases h : k' = k <;> simp [h, ih]

theorem goInsert_of_absent {α : Type} {m : List (String × α)} {k : String} (v : α)
    (h : goFind m k = none) : goInsert m k v = m ++ [(k, v)] := by
  induction m with
  | nil => rfl
  | cons p m ih =>
    obtain ⟨k', v'⟩ := p
    by_cases hk : k' = k
    · simp [hk] at h
    · simp only [goFind_cons, if_neg hk] at h
      simp [goInsert, show (k' == k) = false from by simp [hk], ih h]

@[simp] theorem goFind_goInsert_self {α : Type} (m : List (String × α)) (k : String) (v : α) :
    goFind (goInsert m k v) k = some v := by
  induction m with
  | nil => simp [goInsert]
  | cons p m ih =>
    obtain ⟨k', v'⟩ := p
    by_cases hk : k' = k
    · simp [goInsert, hk]
    · simp [goInsert, show (k' == k) = false from by simp [hk], hk, ih]

@[simp] theorem goFind_goInsert_ne {α : Type} (m : List (String × α)) (k k' : String) (v : α)
    (h : k ≠ k') : goFind (goInsert m k v) k' = goFind m k' := by
  induction m with
  | nil => simp [goInsert, h]
  | cons p m ih =>
    obtain ⟨k'', v''⟩ := p
    by_cases hk : k'' = k
    · subst hk
      simp [goInsert, h]
    · simp only [goInsert, show (k'' == k) = false from by simp [hk], Bool.false_eq_true,
        if_false]
      by_cases hk2 : k'' = k'
      · simp [hk2]
      · simp [hk2, ih]

theorem length_goInsert_of_absent {α : Type} {m : List (String × α)} {k : String} (v : α)
    (h : goFind m k = none) : (goInsert m k v).length = m.length + 1 := by
  rw [goInsert_of_absent v h]; simp

theorem goFind_eq_none_of_not_mem {α : Type} {m : List (String × α)} {k : String}
    (h : k ∉ mapKeys m) : goFind m k = none := by
  induction m with
  | nil => rfl
  | cons p m ih =>
    obtain ⟨k', v⟩ := p
    simp only [mapKeys, List.map_cons, List.mem_cons] at h
    push_neg at h
    simp [Ne.symm h.1, ih (by simpa [mapKeys] using h.2)]

theorem dropWhile_eq_self_of_none {l : List Char}
    (h : ∀ c ∈ l, isSpaceGo c = false) : l.dropWhile isSpaceGo = l := by
  cases l with
  | nil => rfl
  | cons c l => simp [List.dropWhile, h c (List.mem_cons_self c l)]

theorem goTrimSpace_eq_self {s : String}
    (h : ∀ c ∈ s.data, isSpaceGo c = false) : goTrimSpace s = s := by
  unfold goTrimSpace
  rw [dropWhile_eq_self_of_none h, dropWhile_eq_self_of_none (by simpa using h)]
  simp

theorem hexDecodeChars_hexEncodeByte {b : Nat} (hb : b < 256) {rest : List Char} :
    hexDecodeChars (hexEncodeByte b ++ rest) =
      (hexDecodeChars rest).map (fun bs => b :: bs) := by
  have key : ∀ b' < 256, hexDigitVal (hexDigitChar (b' / 16 % 16)) = some (b' / 16 % 16) ∧
      hexDigitVal (hexDigitChar (b' % 16)) = some (b' % 16) ∧
      (b' / 16 % 16) * 16 + b' % 16 = b' := by decide
  obtain ⟨h1, h2, h3⟩ := key b hb
  simp only [hexEncodeByte, List.cons_append, List.nil_append, hexDecodeChars, h1, h2, h3]
  simp

theorem hexDecode_hexEncode {bs : List Nat} (h : ∀ b ∈ bs, b < 256) :
    hexDecode (hexEncode bs) = some bs := by
  unfold hexDecode hexEncode
  show hexDecodeChars ((bs.map hexEncodeByte).flatten) = some bs
  induction bs with
  | nil => rfl
  | cons b bs ih =>
    simp only [List.map_cons, List.flatten_cons]
    rw [hexDecodeChars_hexEncodeByte (h b (List.mem_cons_self b bs))]
    rw [ih (fun x hx => h x (List.mem_cons_of_mem b hx))]
    rfl

theorem hexEncode_not_space {bs : List Nat} (h : ∀ b ∈ bs, b < 256) :
    ∀ c ∈ (hexEncode bs).data, isSpaceGo c = false := by
  have key : ∀ b' < 256, ∀ c ∈ hexEncodeByte b', isSpaceGo c = false := by decide
  intro c hc
  simp only [hexEncode] at hc
  simp only [List.mem_flatten, List.mem_map] at hc
  obtain ⟨l, ⟨b, hb, rfl⟩, hcl⟩ := hc
  exact key b (h b hb) c hcl

theorem goTrimSpace_hexEncode {bs : List Nat} (h : ∀ b ∈ bs, b < 256) :
    goTrimSpace (hexEncode bs) = hexEncode bs :=
  goTrimSpace_eq_self (hexEncode_not_space h)

theorem hexEncode_ne_empty {bs : List Nat} (h : bs ≠ []) : hexEncode bs ≠ "" := by
  cases bs with
  | nil => exact absurd rfl h
  | cons b bs =>
    intro he
    have : (hexEncode (b :: bs)).data = ("" : String).data := by rw [he]
    simp [hexEncode, hexEncodeByte] at this

@[simp] theorem goCopyN_exact (l : List Nat) : goCopyN l (l.length : Int) = (l, (l.length : Int), false) := by
  unfold goCopyN
  by_cases h : l = []
  · subst h; simp
  · have h1 : ¬ ((l.length : Int) ≤ 0) := by
      have := List.length_pos.mpr h
      omega
    have h2 : (l.length : Int) ≤ (l.length : Int) := le_refl _
    rw [if_neg h1, if_pos h2]
    simp

theorem goCopyN_of_le {src : List Nat} {start len : Nat} (h : start + len ≤ src.length) :
    goCopyN (src.drop start) (len : Int) = ((src.drop start).take len, (len : Int), false) := by
  unfold goCopyN
  by_cases h0 : len = 0
  · subst h0; simp
  · have h1 : ¬ ((len : Int) ≤ 0) := by omega
    have h2 : (len : Int) ≤ ((src.drop start).length : Int) := by
      have := List.length_drop start src
      omega
    rw [if_neg h1, if_pos h2]
    simp

theorem goInsert_goInsert {α : Type} (m : List (String × α)) (k : String) (v w : α) :
    goInsert (goInsert m k v) k w = goInsert m k w := by
  induction m with
  | nil => simp [goInsert]
  | cons p m ih =>
    obtain ⟨k', v'⟩ := p
    by_cases h : k' = k
    · subst h
      simp [goInsert]
    · simp only [goInsert, show (k' == k) = false from by simp [h], Bool.false_eq_true, if_false]
      rw [ih]

@[simp] theorem goFindD_goInsert_self {α : Type} (m : List (String × α)) (k : String)
    (v zero : α) : goFindD (goInsert m k v) k zero = v := by
  simp [goFindD]

end S3Spec

namespace S3Spec.Donut

theorem troveAppend_troveAppend (o : List (String × List Nat)) (k : String) (a b : List Nat) :
    troveAppend (troveAppend o k a) k b = troveAppend o k (a ++ b) := by
  unfold troveAppend
  rw [goFindD_goInsert_self, goInsert_goInsert, List.append_assoc]

theorem createLoopF_spec (fuel : Nat) :
    ∀ (data : List Nat) (objects : List (String × List Nat)) (objectKey : String)
      (hashAcc : List Nat) (total reads : Nat), data.length < fuel →
    ∃ r : Nat, createLoopF fuel objects objectKey data hashAcc total reads =
      ((if data.isEmpty then objects else troveAppend objects objectKey data),
       hashAcc ++ data, total + data.length, r) := by
  induction fuel with
  | zero => intro data _ _ _ _ _ h; omega
  | succ n ih =>
    intro data objects objectKey hashAcc total reads h
    by_cases hd : data.isEmpty
    · refine ⟨reads + 1, ?_⟩
      have hdata : data = [] := by simpa [List.isEmpty_iff] using hd
      subst hdata
      simp [createLoopF]
    · have hne : data ≠ [] := by simpa [List.isEmpty_iff] using hd
      have hlen : 0 < data.length := List.length_pos.mpr hne
      have hdec : (data.drop chunkSize).length < n := by
        have := List.length_drop chunkSize data
        simp only [chunkSize] at *
        omega
      obtain ⟨r, hr⟩ := ih (data.drop chunkSize)
        (troveAppend objects objectKey (data.take chunkSize)) objectKey
        (hashAcc ++ data.take chunkSize) (total + (data.take chunkSize).length) (reads + 1) hdec
      refine ⟨r, ?_⟩
      simp only [createLoopF, hd, Bool.false_eq_true, if_false]
      rw [hr]
      by_cases hd2 : (data.drop chunkSize).isEmpty
      · have htake : data.take chunkSize = data := by
          have : data.length ≤ chunkSize := by
            have h0 := List.length_drop chunkSize data
            have : (data.drop chunkSize) = [] := by simpa [List.isEmpty_iff] using hd2
            simp [this] at h0
            omega
          exact List.take_of_length_le this
        have hdrop : data.drop chunkSize = [] := by simpa [List.isEmpty_iff] using hd2
        simp [hd2, hd, htake, hdrop]
      · have heq : data.take chunkSize ++ data.drop chunkSize = data :=
          List.take_append_drop chunkSize data
        simp only [hd2, Bool.false_eq_true, if_false, hd, troveAppend_troveAppend, heq]
        rw [List.append_assoc, heq]
        have hlen2 : (data.take chunkSize).length + (data.drop chunkSize).length = data.length := by
          rw [← List.length_append, heq]
        rw [show total + (data.take chunkSize).length + (data.drop chunkSize).length
            = total + data.length from by omega]

theorem createLoop_spec (objects : List (String × List Nat)) (objectKey : String)
    (data : List Nat) (hne : data ≠ []) :
    ∃ r : Nat, createLoop objects objectKey data [] 0 0 =
      (troveAppend objects objectKey data, data, data.length, r) := by
  obtain ⟨r, hr⟩ := createLoopF_spec (data.length + 1) data objects objectKey [] 0 0 (by omega)
  refine ⟨r, ?_⟩
  unfold createLoop
  rw [hr]
  simp [List.isEmpty_iff, hne]

theorem countP_insertLeBM (p : BucketMetadata → Bool) (x : BucketMetadata)
    (l : List BucketMetadata) :
    (insertLeBM x l).countP p = l.countP p + (if p x then 1 else 0) := by
  induction l with
  | nil => by_cases h : p x <;> simp [insertLeBM, List.countP_cons, h]
  | cons y ys ih =>
    by_cases hle : strLe x.name y.name
    · by_cases h : p x <;> simp [insertLeBM, hle, List.countP_cons, h]
    · simp only [insertLeBM, hle, Bool.false_eq_true, if_false, List.countP_cons, ih]
      omega

theorem countP_sortByName (p : BucketMetadata → Bool) (l : List BucketMetadata) :
    (sortByName l).countP p = l.countP p := by
  induction l with
  | nil => rfl
  | cons x xs ih =>
    simp only [sortByName, countP_insertLeBM, ih, List.countP_cons]

theorem keys_ne_of_goFind_eq_none {α : Type} {m : List (String × α)} {k : String}
    (h : goFind m k = none) : ∀ p ∈ m, p.1 ≠ k := by
  intro p hp
  induction m with
  | nil => cases hp
  | cons q m ih =>
    obtain ⟨k', v⟩ := q
    by_cases hk : k' = k
    · simp [hk] at h
    · simp only [goFind_cons, if_neg hk] at h
      rcases List.mem_cons.mp hp with hpq | hpm
      · subst hpq; exact hk
      · exact ih h hpm

theorem listLoop_one (om : List (String × ObjectMetadata)) (bucket pfx : String)
    (res : BucketResourcesMetadata) (k : String)
    (hne : ((0 : Int) == res.maxkeys) = false) :
    listLoop om bucket pfx res [k] [] =
      .done [goFindD om (bucket ++ "/" ++ pfx ++ k) zeroObjectMetadata] := by
  simp only [listLoop, List.length_nil, Nat.cast_zero, hne, Bool.false_eq_true, if_false,
    List.nil_append]

/-! ## Claim theorems -/

/-- C4: for an object of size N resident in the byte cache, and valid bucket/object
names, `GetPartialObject(w, bucket, object, start, length)` with `0 ≤ start` and
`start + length ≤ N` writes exactly `bytes[start : start+length]` to `w` and returns
`length`; and for every `start < 0` it fails with the invalid-range error. -/
theorem claim_c4 (c : CacheState) (rules : NameRules) (bucket object : String)
    (data : List Nat)
    (hvb : rules.isValidBucket bucket = true)
    (hvo : rules.isValidObjectName object = true)
    (hdata : goFind c.objects (bucket ++ "/" ++ object) = some data) :
    (∀ start len : Nat, start + len ≤ data.length →
      GetPartialObject c rules bucket object (start : Int) (len : Int) =
        ⟨.ok (len : Int), (data.drop start).take len, c⟩) ∧
    (∀ start length : Int, start < 0 →
      GetPartialObject c rules bucket object start length = ⟨.err .invalidRange, [], c⟩) := by
  constructor
  · intro start len hlen
    have h1 : ¬ ((start : Int) < 0) := by omega
    have h2 : ¬ ((data.length : Int) < (start : Int)) := by omega
    have h3 : (start : Int).toNat = start := Int.toNat_ofNat start
    have h4 := @goCopyN_of_le data start len hlen
    simp only [GetPartialObject, hvb, hvo, Bool.not_true, Bool.false_eq_true, if_false,
      if_neg h1, troveGet, hdata, if_neg h2, h3, h4]
  · intro start length hstart
    simp only [GetPartialObject, hvb, hvo, Bool.not_true, Bool.false_eq_true, if_false,
      if_pos hstart]

/-- Witness for C4 at a concrete resident object. -/
theorem claim_c4_witness :
    (rulesTrue.isValidBucket "foo" = true ∧ rulesTrue.isValidObjectName "obj" = true ∧
     goFind cacheResident.objects ("foo" ++ "/" ++ "obj") = some [10, 20, 30, 40] ∧
     1 + 2 ≤ [10, 20, 30, 40].length) ∧
    GetPartialObject cacheResident rulesTrue "foo" "obj" ((1 : Nat) : Int) ((2 : Nat) : Int) =
      ⟨.ok ((2 : Nat) : Int), ([10, 20, 30, 40].drop 1).take 2, cacheResident⟩ ∧
    GetPartialObject cacheResident rulesTrue "foo" "obj" (-1) 2 =
      ⟨.err .invalidRange, [], cacheResident⟩ :=
  ⟨⟨by decide, by decide, by decide, by decide⟩,
   (claim_c4 cacheResident rulesTrue "foo" "obj" [10, 20, 30, 40]
     (by decide) (by decide) (by decide)).1 1 2 (by decide),
   (claim_c4 cacheResident rulesTrue "foo" "obj" [10, 20, 30, 40]
     (by decide) (by decide) (by decide)).2 (-1) 2 (by decide)⟩

/-- C10: when the bucket's object-metadata map already holds the key (and the request
is otherwise admissible, `size ≤ maxSize`), `CreateObject` fails with `ObjectExists`,
leaves the whole cache state unchanged, and performs zero reads on the supplied
reader. -/
theorem claim_c10 (c : CacheState) (rules : NameRules) (md5 : List Nat → List Nat)
    (b64 : String → Option (List Nat)) (now : Nat)
    (bucket key contentType expectedMD5Sum : String) (size : Int) (data : List Nat)
    (sb : storedBucket) (m : ObjectMetadata)
    (hvb : rules.isValidBucket bucket = true)
    (hvo : rules.isValidObjectName key = true)
    (hsb : goFind c.storedBuckets bucket = some sb)
    (hm : goFind sb.objectMetadata (bucket ++ "/" ++ key) = some m)
    (hsize : size ≤ (c.maxSize : Int)) :
    CreateObject c rules md5 b64 now bucket key contentType expectedMD5Sum size data =
      ⟨.error .objectExists, c, 0⟩ := by
  have h1 : ¬ (size > (c.maxSize : Int)) := by omega
  simp only [CreateObject, if_neg h1, createObject, hvb, hvo, Bool.not_true,
    Bool.false_eq_true, if_false, hsb, hm, Option.isSome_some, if_true]

/-- C1 (amended: the byte sequence must be non-empty; see the counterexample for the
empty sequence): in a cacheless-backend state, for every existing bucket, valid fresh
key, and non-empty byte sequence of length at most the configured maximum,
`CreateObject` succeeds with metadata carrying the sequence's length and the
hex-encoded MD5 digest; a subsequent `GetObject` writes exactly those bytes and
returns their length; and `GetObjectMetadata` returns that same metadata. -/
theorem claim_c1 (c : CacheState) (rules : NameRules) (md5 : List Nat → List Nat)
    (b64 : String → Option (List Nat)) (now : Nat)
    (bucket key contentType expectedMD5Sum : String) (bytes : List Nat) (sb : storedBucket)
    (hdonut : c.donut = none)
    (hvb : rules.isValidBucket bucket = true)
    (hvo : rules.isValidObjectName key = true)
    (hsb : goFind c.storedBuckets bucket = some sb)
    (hfresh : goFind sb.objectMetadata (bucket ++ "/" ++ key) = none)
    (hobjfresh : goFind c.objects (bucket ++ "/" ++ key) = none)
    (hsize : bytes.length ≤ c.maxSize)
    (hnb : bytes ≠ [])
    (hnodigest : goTrimSpace expectedMD5Sum = "") :
    ∃ meta : ObjectMetadata,
      (CreateObject c rules md5 b64 now bucket key contentType expectedMD5Sum
        (bytes.length : Int) bytes).ret = .ok meta ∧
      meta.size = (bytes.length : Int) ∧
      meta.md5Sum = hexEncode (md5 bytes) ∧
      GetObject (CreateObject c rules md5 b64 now bucket key contentType expectedMD5Sum
          (bytes.length : Int) bytes).state rules bucket key =
        ⟨.ok (bytes.length : Int), bytes,
         (CreateObject c rules md5 b64 now bucket key contentType expectedMD5Sum
           (bytes.length : Int) bytes).state⟩ ∧
      (GetObjectMetadata (CreateObject c rules md5 b64 now bucket key contentType
          expectedMD5Sum (bytes.length : Int) bytes).state rules bucket key).1 = .ok meta := by
  obtain ⟨r, hloop⟩ := createLoop_spec c.objects (bucket ++ "/" ++ key) bytes hnb
  have h1 : ¬ ((bytes.length : Int) > (c.maxSize : Int)) := by omega
  have hbytes0 : goFindD c.objects (bucket ++ "/" ++ key) [] = [] := by
    simp [goFindD, hobjfresh]
  have happ : troveAppend c.objects (bucket ++ "/" ++ key) bytes
      = goInsert c.objects (bucket ++ "/" ++ key) bytes := by
    rw [troveAppend, hbytes0, List.nil_append]
  set nObj : ObjectMetadata := ⟨bucket, key,
    [("contentType", goTrimSpace (if contentType = "" then "application/octet-stream"
      else contentType))], now, hexEncode (md5 bytes), (bytes.length : Int)⟩ with hnObj
  refine ⟨nObj, ?_⟩
  have hco : CreateObject c rules md5 b64 now bucket key contentType expectedMD5Sum
      (bytes.length : Int) bytes =
      CreateResult.mk (.ok nObj)
        (CacheState.mk
          (goInsert c.storedBuckets bucket
            (storedBucket.mk sb.bucketMetadata
              (goInsert sb.objectMetadata (bucket ++ "/" ++ key) nObj)))
          (goInsert c.objects (bucket ++ "/" ++ key) bytes)
          c.maxSize c.donut)
        r := by
    simp only [CreateObject, if_neg h1, createObject, hvb, hvo, Bool.not_true,
      Bool.false_eq_true, if_false, hsb, hfresh, Option.isSome_none, if_pos hnodigest,
      hdonut, hloop, happ]
    rw [if_neg (fun hcon => hcon.1 hnodigest)]
  rw [hco]
  refine ⟨rfl, rfl, rfl, ?_, ?_⟩
  · simp only [GetObject, hvb, hvo, Bool.not_true, Bool.false_eq_true, if_false,
      goFind_goInsert_self, Option.isNone_some, troveGet, troveLen, goFindD_goInsert_self,
      goCopyN_exact]
  · simp only [GetObjectMetadata, hvb, hvo, Bool.not_true, Bool.false_eq_true, if_false,
      goFind_goInsert_self]

/-- Witness for C1 at a concrete three-byte object. -/
theorem claim_c1_witness :
    (cacheFoo.donut = none ∧ rulesTrue.isValidBucket "foo" = true ∧
     rulesTrue.isValidObjectName "obj" = true ∧
     goFind cacheFoo.storedBuckets "foo" = some sbEmptyFoo ∧
     goFind sbEmptyFoo.objectMetadata ("foo" ++ "/" ++ "obj") = none ∧
     goFind cacheFoo.objects ("foo" ++ "/" ++ "obj") = none ∧
     ([1, 2, 3] : List Nat).length ≤ cacheFoo.maxSize ∧
     ([1, 2, 3] : List Nat) ≠ [] ∧ goTrimSpace "" = "") ∧
    (∃ meta : ObjectMetadata,
      (CreateObject cacheFoo rulesTrue md5Fix b64Fix 5 "foo" "obj" "" ""
        (([1, 2, 3] : List Nat).length : Int) [1, 2, 3]).ret = .ok meta ∧
      meta.size = (([1, 2, 3] : List Nat).length : Int) ∧
      meta.md5Sum = hexEncode (md5Fix [1, 2, 3]) ∧
      GetObject (CreateObject cacheFoo rulesTrue md5Fix b64Fix 5 "foo" "obj" "" ""
          (([1, 2, 3] : List Nat).length : Int) [1, 2, 3]).state rulesTrue "foo" "obj" =
        ⟨.ok (([1, 2, 3] : List Nat).length : Int), [1, 2, 3],
         (CreateObject cacheFoo rulesTrue md5Fix b64Fix 5 "foo" "obj" "" ""
           (([1, 2, 3] : List Nat).length : Int) [1, 2, 3]).state⟩ ∧
      (GetObjectMetadata (CreateObject cacheFoo rulesTrue md5Fix b64Fix 5 "foo" "obj" "" ""
          (([1, 2, 3] : List Nat).length : Int) [1, 2, 3]).state rulesTrue "foo" "obj").1
        = .ok meta) :=
  ⟨⟨by rfl, by decide, by decide, by decide, by decide, by decide, by decide, by decide,
    by decide⟩,
   claim_c1 cacheFoo rulesTrue md5Fix b64Fix 5 "foo" "obj" "" "" [1, 2, 3] sbEmptyFoo
     (by rfl) (by decide) (by decide) (by decide) (by decide) (by decide) (by decide)
     (by decide) (by decide)⟩

/-- Counterexample for C1 as stated: with the empty byte sequence (length `0 ≤ max`),
`CreateObject` succeeds — but the byte cache receives no entry, so the subsequent
`GetObject` fails with `ObjectNotFound` instead of writing the empty sequence and
returning 0. -/
theorem claim_c1_counterexample :
    (CreateObject cacheFoo rulesTrue md5Fix b64Fix 5 "foo" "obj" "" "" 0 []).ret =
      .ok ⟨"foo", "obj", [("contentType", "application/octet-stream")], 5,
        hexEncode (md5Fix []), 0⟩ ∧
    (GetObject (CreateObject cacheFoo rulesTrue md5Fix b64Fix 5 "foo" "obj" "" "" 0
        []).state rulesTrue "foo" "obj").ret = .error .objectNotFound := by
  constructor
  · decide
  · decide

/-- C2 (amended: the object `obj2`, which does not contain the delimiter `"1"` after
the prefix `"o"` is stripped, stays individually listed; the claim's "empty list of
individually-listed objects" is refuted by the counterexample): over a bucket holding
exactly `obj1` and `obj2`, `ListObjects` with prefix `"o"`, delimiter `"1"`, empty
marker and `maxKeys ≥ 2` returns common prefixes exactly `{"obj1"}` and exactly one
individually listed object, `obj2`, untruncated. -/
theorem claim_c2 (mk : Int) (hmk : 2 ≤ mk) :
    (ListObjects cacheFoo5 rulesTrue "foo5" (listReq mk)).objects = [metaObj2] ∧
    (ListObjects cacheFoo5 rulesTrue "foo5" (listReq mk)).resources.commonPrefixes
      = ["obj1"] ∧
    (ListObjects cacheFoo5 rulesTrue "foo5" (listReq mk)).resources.isTruncated = false ∧
    (ListObjects cacheFoo5 rulesTrue "foo5" (listReq mk)).ret = .ok := by
  have hbeq : ((0 : Int) == mk) = false := by
    rw [beq_eq_false_iff_ne]
    omega
  have hcand : candidateKeys sbFoo5.objectMetadata "foo5" "o" "" = ["obj1", "obj2"] := by
    decide
  have hpipe : delimPipeline ["obj1", "obj2"] "o" "1" = (["bj1"], ["bj2"]) := by decide
  have hfilt : sortStrings (removeDup ["bj2"]) = ["bj2"] := by decide
  have hfind : goFind cacheFoo5.storedBuckets "foo5" = some sbFoo5 := by decide
  have hdonut : cacheFoo5.donut = none := rfl
  have hmeta : goFindD sbFoo5.objectMetadata ("foo5" ++ "/" ++ "o" ++ "bj2")
      zeroObjectMetadata = metaObj2 := by decide
  have hcp : sortStrings (removeDup [("o" : String) ++ "bj1"]) = ["obj1"] := by decide
  refine ⟨?_, ?_, ?_, ?_⟩ <;>
    simp only [ListObjects, rulesTrue, Bool.not_true, Bool.false_eq_true, if_false, hfind,
      listReq, hdonut, hcand, hpipe, hfilt, List.map_cons, List.map_nil, List.nil_append,
      listLoop_one, hbeq, hmeta, hcp]

/-- C8 (amended: to observe `BucketExists` on the second call, the stored-bucket
count must be at least two below the 100-bucket ceiling when the first call runs;
at exactly 99 stored buckets the second call fails with `TooManyBuckets` instead,
because the count guard precedes the existence guard — see the counterexample):
for every valid fresh bucket name B and valid ACL, `MakeBucket(B, acl)` succeeds,
`ListBuckets()` then contains B exactly once, and a second `MakeBucket(B, acl)`
fails with `BucketExists`. -/
theorem claim_c8 (c : CacheState) (rules : NameRules) (now now2 : Nat) (B acl : String)
    (hinv : ∀ p ∈ c.storedBuckets, p.2.bucketMetadata.name = p.1)
    (hcount : c.storedBuckets.length + 1 < totalBuckets)
    (hvb : rules.isValidBucket B = true)
    (hacl : rules.isValidBucketACL acl = true)
    (habsent : goFind c.storedBuckets B = none)
    (hdonut : c.donut = none) :
    (MakeBucket c rules now B acl).1 = .ok () ∧
    ((ListBuckets (MakeBucket c rules now B acl).2).countP (fun b => b.name == B)) = 1 ∧
    (MakeBucket (MakeBucket c rules now B acl).2 rules now2 B acl).1
      = .error .bucketExists := by
  have hne1 : (c.storedBuckets.length == totalBuckets) = false := by
    rw [beq_eq_false_iff_ne]
    omega
  set nb : storedBucket :=
    ⟨⟨B, now, if goTrimSpace acl = "" then "private" else acl⟩, []⟩ with hnb
  have hmb1 : MakeBucket c rules now B acl =
      (.ok (), { c with storedBuckets := goInsert c.storedBuckets B nb }) := by
    simp only [MakeBucket, hne1, Bool.false_eq_true, if_false, hvb, hacl, Bool.not_true,
      habsent, Option.isSome_none, hdonut, hnb]
  have hlen2 : ((goInsert c.storedBuckets B nb).length == totalBuckets) = false := by
    rw [length_goInsert_of_absent _ habsent, beq_eq_false_iff_ne]
    omega
  refine ⟨by rw [hmb1], ?_, ?_⟩
  · rw [hmb1]
    show ((ListBuckets { c with storedBuckets := goInsert c.storedBuckets B nb }).countP
      (fun b => b.name == B)) = 1
    rw [ListBuckets]
    rw [countP_sortByName]
    rw [List.countP_map]
    rw [goInsert_of_absent _ habsent]
    rw [List.countP_append]
    have hzero : (c.storedBuckets.countP
        ((fun b => b.name == B) ∘ (fun p => p.2.bucketMetadata))) = 0 := by
      rw [List.countP_eq_zero]
      intro p hp
      simp only [Function.comp_apply, beq_iff_eq]
      rw [hinv p hp]
      exact keys_ne_of_goFind_eq_none habsent p hp
    rw [hzero]
    simp [hnb]
  · rw [hmb1]
    simp only [MakeBucket, hlen2, Bool.false_eq_true, if_false, hvb, hacl, Bool.not_true,
      goFind_goInsert_self, Option.isSome_some, if_true]

/-- Witness for C8's amended statement at a one-bucket state. -/
theorem claim_c8_witness :
    ((∀ p ∈ cacheFoo.storedBuckets, p.2.bucketMetadata.name = p.1) ∧
     cacheFoo.storedBuckets.length + 1 < totalBuckets ∧
     rulesTrue.isValidBucket "bar" = true ∧ rulesTrue.isValidBucketACL "private" = true ∧
     goFind cacheFoo.storedBuckets "bar" = none ∧ cacheFoo.donut = none) ∧
    ((MakeBucket cacheFoo rulesTrue 7 "bar" "private").1 = .ok () ∧
     ((ListBuckets (MakeBucket cacheFoo rulesTrue 7 "bar" "private").2).countP
       (fun b => b.name == "bar")) = 1 ∧
     (MakeBucket (MakeBucket cacheFoo rulesTrue 7 "bar" "private").2 rulesTrue 8 "bar"
       "private").1 = .error .bucketExists) :=
  ⟨⟨by decide, by decide, by decide, by decide, by decide, by rfl⟩,
   claim_c8 cacheFoo rulesTrue 7 8 "bar" "private" (by decide) (by decide) (by decide)
     (by decide) (by decide) (by rfl)⟩

/-- Counterexample for C8 as stated: at 99 stored buckets — fewer than the ceiling —
the first `MakeBucket("zz")` succeeds, but the second fails with `TooManyBuckets`
rather than `BucketExists`, because the count check runs before the existence
check. -/
theorem claim_c8_counterexample :
    cache99.storedBuckets.length < totalBuckets ∧
    (MakeBucket cache99 rulesTrue 7 "zz" "private").1 = .ok () ∧
    (MakeBucket (MakeBucket cache99 rulesTrue 7 "zz" "private").2 rulesTrue 7 "zz"
      "private").1 = .error .tooManyBuckets ∧
    (Except.error CacheErr.tooManyBuckets : Except CacheErr Unit) ≠
      .error .bucketExists := by
  refine ⟨by decide, by decide, by decide, by decide⟩

/-- C5, evaluated at its failing input (code bug): on a cold cache over a backend
holding `bx/ox ↦ [1,2,3]`, `GetObject` does cache exactly the tee'd backend bytes —
but `GetPartialObject(start 1, length 2)` succeeds writing `[2,3]` while inserting
the proxy writer's buffer, which is still empty because the copy targeted `w`
directly; the subsequent cache-hit read of the key returns no bytes instead of the
bytes read from the backend. -/
theorem claim_c5 :
    (GetObject cacheBx rulesTrue "bx" "ox").ret = .ok 3 ∧
    (GetObject cacheBx rulesTrue "bx" "ox").out = [1, 2, 3] ∧
    goFind (GetObject cacheBx rulesTrue "bx" "ox").state.objects ("bx" ++ "/" ++ "ox")
      = some [1, 2, 3] ∧
    (GetPartialObject cacheBx rulesTrue "bx" "ox" 1 2).ret = .ok 2 ∧
    (GetPartialObject cacheBx rulesTrue "bx" "ox" 1 2).out = [2, 3] ∧
    goFind (GetPartialObject cacheBx rulesTrue "bx" "ox" 1 2).state.objects
      ("bx" ++ "/" ++ "ox") = some [] ∧
    (GetObject (GetPartialObject cacheBx rulesTrue "bx" "ox" 1 2).state rulesTrue "bx"
      "ox").ret = .ok 0 ∧
    (GetObject (GetPartialObject cacheBx rulesTrue "bx" "ox" 1 2).state rulesTrue "bx"
      "ox").out = [] ∧
    ([] : List Nat) ≠ [2, 3] := by
  refine ⟨by decide, by decide, by decide, by decide, by decide, by decide, by decide,
    by decide, by decide⟩

/-- Witness for C2's amended statement at `maxKeys = 2`. -/
theorem claim_c2_witness :
    (2 : Int) ≤ 2 ∧
    ((ListObjects cacheFoo5 rulesTrue "foo5" (listReq 2)).objects = [metaObj2] ∧
     (ListObjects cacheFoo5 rulesTrue "foo5" (listReq 2)).resources.commonPrefixes
       = ["obj1"] ∧
     (ListObjects cacheFoo5 rulesTrue "foo5" (listReq 2)).resources.isTruncated = false ∧
     (ListObjects cacheFoo5 rulesTrue "foo5" (listReq 2)).ret = .ok) :=
  ⟨by decide, claim_c2 2 (by decide)⟩

/-- Counterexample for C2 as stated: with `maxKeys = 10 ≥ 2`, the individually listed
objects are not empty — `obj2` is listed (its suffix `"bj2"` does not contain the
delimiter `"1"`), even though the common prefixes are exactly `{"obj1"}`. -/
theorem claim_c2_counterexample :
    (ListObjects cacheFoo5 rulesTrue "foo5" (listReq 10)).objects = [metaObj2] ∧
    metaObj2.object = "obj2" ∧
    (ListObjects cacheFoo5 rulesTrue "foo5" (listReq 10)).objects ≠ [] ∧
    (ListObjects cacheFoo5 rulesTrue "foo5" (listReq 10)).resources.commonPrefixes
      = ["obj1"] := by
  refine ⟨by decide, by decide, by decide, by decide⟩

/-- C3: on an existing bucket and fresh key, `CreateObject` with a supplied digest
that decodes as base64 to bytes `d` different from the MD5 digest computed over the
reader's bytes fails with `BadDigest`, and the stored-bucket map (hence the bucket's
object-metadata map) is left unchanged, so no metadata is recorded for the key. -/
theorem claim_c3 (c : CacheState) (rules : NameRules) (md5 : List Nat → List Nat)
    (b64 : String → Option (List Nat)) (now : Nat)
    (bucket key contentType expectedMD5Sum : String) (size : Int) (bytes : List Nat)
    (sb : storedBucket) (d : List Nat)
    (hdonut : c.donut = none)
    (hvb : rules.isValidBucket bucket = true)
    (hvo : rules.isValidObjectName key = true)
    (hsb : goFind c.storedBuckets bucket = some sb)
    (hfresh : goFind sb.objectMetadata (bucket ++ "/" ++ key) = none)
    (hsize : size ≤ (c.maxSize : Int))
    (hsupplied : goTrimSpace expectedMD5Sum ≠ "")
    (hb64 : b64 (goTrimSpace expectedMD5Sum) = some d)
    (hd : d ≠ [])
    (hdlt : ∀ x ∈ d, x < 256)
    (hmd5ne : md5 bytes ≠ [])
    (hmd5lt : ∀ x ∈ md5 bytes, x < 256)
    (hne : d ≠ md5 bytes) :
    (CreateObject c rules md5 b64 now bucket key contentType expectedMD5Sum size bytes).ret
      = .error .badDigest ∧
    (CreateObject c rules md5 b64 now bucket key contentType expectedMD5Sum size
      bytes).state.storedBuckets = c.storedBuckets := by
  obtain ⟨r, hloop⟩ :=
    createLoopF_spec (bytes.length + 1) bytes c.objects (bucket ++ "/" ++ key) [] 0 0 (by omega)
  have h1 : ¬ (size > (c.maxSize : Int)) := by omega
  have htrimd : goTrimSpace (hexEncode d) = hexEncode d := goTrimSpace_hexEncode hdlt
  have htrimm : goTrimSpace (hexEncode (md5 bytes)) = hexEncode (md5 bytes) :=
    goTrimSpace_hexEncode hmd5lt
  have hned : hexEncode d ≠ "" := hexEncode_ne_empty hd
  have hnem : hexEncode (md5 bytes) ≠ "" := hexEncode_ne_empty hmd5ne
  have hcmp : isMD5SumEqual (goTrimSpace (hexEncode d)) (hexEncode (md5 bytes))
      = .errMismatch := by
    rw [htrimd]
    unfold isMD5SumEqual
    rw [if_pos ⟨by rw [htrimd]; exact hned, by rw [htrimm]; exact hnem⟩]
    rw [hexDecode_hexEncode hdlt, hexDecode_hexEncode hmd5lt]
    simp [hne]
  simp only [CreateObject, if_neg h1, createObject, hvb, hvo, Bool.not_true,
    Bool.false_eq_true, if_false, hsb, hfresh, Option.isSome_none, if_neg hsupplied, hb64,
    hdonut, createLoop, hloop, List.nil_append]
  rw [if_pos ⟨by rw [htrimd]; exact hned, by rw [hcmp]; exact fun hcon => by cases hcon⟩]
  constructor
  · rfl
  · rfl

/-- Witness for C3: the supplied digest decodes to `[65]` while the computed digest
is sixteen 7-bytes, so creation fails with `BadDigest` and records no metadata. -/
theorem claim_c3_witness :
    (cacheFoo.donut = none ∧ rulesTrue.isValidBucket "foo" = true ∧
     rulesTrue.isValidObjectName "obj" = true ∧
     goFind cacheFoo.storedBuckets "foo" = some sbEmptyFoo ∧
     goFind sbEmptyFoo.objectMetadata ("foo" ++ "/" ++ "obj") = none ∧
     (2 : Int) ≤ (cacheFoo.maxSize : Int) ∧
     goTrimSpace "QQ==" ≠ "" ∧ b64Fix (goTrimSpace "QQ==") = some [65] ∧
     ([65] : List Nat) ≠ [] ∧ (∀ x ∈ ([65] : List Nat), x < 256) ∧
     md5Fix [9, 9] ≠ [] ∧ (∀ x ∈ md5Fix [9, 9], x < 256) ∧
     ([65] : List Nat) ≠ md5Fix [9, 9]) ∧
    (CreateObject cacheFoo rulesTrue md5Fix b64Fix 5 "foo" "obj" "" "QQ==" 2 [9, 9]).ret
      = .error .badDigest ∧
    (CreateObject cacheFoo rulesTrue md5Fix b64Fix 5 "foo" "obj" "" "QQ==" 2
      [9, 9]).state.storedBuckets = cacheFoo.storedBuckets :=
  ⟨⟨by rfl, by decide, by decide, by decide, by decide, by decide, by decide, by decide,
    by decide, by decide, by decide, by decide, by decide⟩,
   claim_c3 cacheFoo rulesTrue md5Fix b64Fix 5 "foo" "obj" "" "QQ==" 2 [9, 9] sbEmptyFoo [65]
     (by rfl) (by decide) (by decide) (by decide) (by decide) (by decide) (by decide)
     (by decide) (by decide) (by decide) (by decide) (by decide) (by decide)⟩

/-- Witness for C10 at a concrete state holding `foo/obj`. -/
theorem claim_c10_witness :
    (rulesTrue.isValidBucket "foo" = true ∧ rulesTrue.isValidObjectName "obj" = true ∧
     goFind cacheWithObj.storedBuckets "foo" = some sbWithObj ∧
     goFind sbWithObj.objectMetadata ("foo" ++ "/" ++ "obj") = some metaFoo ∧
     (1 : Int) ≤ (cacheWithObj.maxSize : Int)) ∧
    CreateObject cacheWithObj rulesTrue md5Fix b64Fix 0 "foo" "obj" "" "" 1 [7] =
      ⟨.error .objectExists, cacheWithObj, 0⟩ :=
  ⟨⟨by decide, by decide, by decide, by decide, by decide⟩,
   claim_c10 cacheWithObj rulesTrue md5Fix b64Fix 0 "foo" "obj" "" "" 1 [7] sbWithObj metaFoo
     (by decide) (by decide) (by decide) (by decide) (by decide)⟩

end S3Spec.Donut

namespace S3Spec.S3X

/-- C6, evaluated at its failing inputs (code bug): aborting an unknown upload ID
returns `ErrInvalidUploadID` only while the multipart map is still nil; as soon as
any session exists, `multipartExists` reads `.Id` through the nil pointer returned
for the absent key and panics — and after a successful abort the subsequent
`MultipartIDExists` on the removed ID panics the same way instead of failing with
`ErrInvalidUploadID`. -/
theorem claim_c6 :
    (AbortMultipartUpload ledgerB1 "bucket1" "missing").1 = .err .invalidUploadID ∧
    (NewMultipartUpload ledgerB1 "bucket1" "obj" "upload1").1 = .ok () ∧
    (AbortMultipartUpload ledgerUp1 "bucket1" "missing").1 = .panicNilDeref ∧
    (AbortMultipartUpload ledgerUp1 "bucket1" "upload1").1 = .ok () ∧
    MultipartIDExists (AbortMultipartUpload ledgerUp1 "bucket1" "upload1").2 "upload1"
      = .panicNilDeref ∧
    (LOut.panicNilDeref : LOut Unit) ≠ .err .invalidUploadID := by
  refine ⟨by decide, by decide, by decide, by decide, by decide, by decide⟩

/-- C7, evaluated at its failing input (code bug): the session `upload1` in bucket
`bucket1` exists and holds exactly one part with data hash `"h"`, yet
`GetMultipartHashes("bucket1", "upload1")` reads `MultipartUploads[bucket]` — the
bucket name instead of the upload ID — and dereferences the resulting nil pointer,
panicking instead of returning `["h"]`. -/
theorem claim_c7 :
    (NewMultipartUpload ledgerB1 "bucket1" "obj" "upload1").1 = .ok () ∧
    (PutObjectPart (NewMultipartUpload ledgerB1 "bucket1" "obj" "upload1").2 "bucket1"
      "obj" "h" "upload1" 1).1 = .ok () ∧
    multipartExists ledgerUp1 "upload1" = .ok () ∧
    goFind (ledgerUp1.multipartUploads.getD []) "upload1"
      = some ⟨"bucket1", "obj", "upload1", [⟨1, "h"⟩]⟩ ∧
    GetMultipartHashes ledgerUp1 "bucket1" "upload1" = .panicNilDeref ∧
    (LOut.panicNilDeref : LOut (List String)) ≠ .ok ["h"] := by
  refine ⟨by decide, by decide, by decide, by decide, by decide, by decide⟩

end S3Spec.S3X

namespace S3Spec.Lifecycle

/-- C9 (amended: the loop has no `continue` after the tick sleep, so after sleeping
the 1-hour tick the iteration still falls through and invokes `lifecycleRound`): in
every iteration where the most recent cluster-wide sweep-completion time is non-zero
and younger than the 24-hour interval, the iteration first sleeps the 1-hour tick
and then runs `lifecycleRound` in that same iteration. -/
theorem claim_c9 (status : List Int) (now : Int) (outcome : RoundOutcome)
    (hnz : computeLastLifecycleActivity status ≠ 0)
    (hfresh : now - computeLastLifecycleActivity status < bgLifecycleInterval) :
    iterationTrace status now outcome =
      Action.sleep bgLifecycleTick :: Action.runLifecycleRound :: roundFollowup outcome ∧
    Action.runLifecycleRound ∈ iterationTrace status now outcome := by
  have h1 : iterationTrace status now outcome =
      Action.sleep bgLifecycleTick :: Action.runLifecycleRound :: roundFollowup outcome := by
    simp only [iterationTrace, if_pos (And.intro hnz hfresh)]
    rfl
  exact ⟨h1, by rw [h1]; simp⟩

/-- Witness for C9's amended statement at a concrete recent activity time. -/
theorem claim_c9_witness :
    (computeLastLifecycleActivity [5] ≠ 0 ∧
     (6 : Int) - computeLastLifecycleActivity [5] < bgLifecycleInterval) ∧
    (iterationTrace [5] 6 RoundOutcome.other =
      Action.sleep bgLifecycleTick :: Action.runLifecycleRound ::
        roundFollowup RoundOutcome.other ∧
     Action.runLifecycleRound ∈ iterationTrace [5] 6 RoundOutcome.other) :=
  ⟨⟨by decide, by decide⟩, claim_c9 [5] 6 RoundOutcome.other (by decide) (by decide)⟩

/-- Counterexample for C9 as stated: with last activity 5 and now 6 — non-zero and
well inside the interval — the iteration's trace is sleep-tick, run, sleep-tick:
`lifecycleRound` is invoked in that very iteration, contradicting "restarts the loop
without performing a sweep". -/
theorem claim_c9_counterexample :
    computeLastLifecycleActivity [5] ≠ 0 ∧
    (6 : Int) - computeLastLifecycleActivity [5] < bgLifecycleInterval ∧
    iterationTrace [5] 6 RoundOutcome.operationTimedOut =
      [Action.sleep bgLifecycleTick, Action.runLifecycleRound,
       Action.sleep bgLifecycleTick] ∧
    Action.runLifecycleRound ∈ iterationTrace [5] 6 RoundOutcome.operationTimedOut := by
  refine ⟨by decide, by decide, by decide, by decide⟩

end S3Spec.Lifecycle
